import Mathlib

/-!
Verification of the N64 ROM header parser and classifier core of the
repository source (a single Python module).  The embedding mirrors the
Python code: byte buffers are lists of natural numbers (one element per
byte), Python strings are Lean strings, the lookup dictionaries become
association lists in their declaration order, and the filesystem read
is an abstract outcome (missing file, failing read, or file content).
-/

namespace CatsHLE

/-- Tag naming one of the two byte-reordering transforms.  The Python
detect_rom_format returns the swap function itself; here we return the
tag that names it. -/
inductive SwapFunc where
  | n64Swap
  | v64Swap
deriving DecidableEq

/-- Python swap_bytes_n64: word swap, each aligned group of four bytes
ABCD becomes DCBA; a trailing group of fewer than four bytes is copied
unchanged. -/
def swap_bytes_n64 : List Nat → List Nat
  | a :: b :: c :: d :: rest => d :: c :: b :: a :: swap_bytes_n64 rest
  | rest => rest

/-- Python swap_bytes_v64: halfword swap, each aligned pair AB becomes
BA; a trailing single byte is copied unchanged. -/
def swap_bytes_v64 : List Nat → List Nat
  | a :: b :: rest => b :: a :: swap_bytes_v64 rest
  | rest => rest

/-- Python detect_rom_format: classify the first four bytes of a ROM
file.  Returns the pair (format value, swap function); an input of
fewer than four bytes returns (None, None). -/
def detect_rom_format (header_bytes : List Nat) : Option String × Option SwapFunc :=
  match header_bytes with
  | b0 :: b1 :: _ :: b3 :: _ =>
    if b0 = 0x80 ∧ b1 = 0x37 then (some "z64", none)
    else if b0 = 0x40 ∧ b3 = 0x80 then (some "n64", some .n64Swap)
    else if b0 = 0x37 ∧ b1 = 0x80 then (some "v64", some .v64Swap)
    else if b0 = 0x80 then (some "z64", none)
    else (some "unknown", none)
  | _ => (none, none)

/-- Byte at index i of a buffer, 0 when out of range (the Python code
only indexes inside buffers it has checked to be long enough). -/
def byteAt (l : List Nat) (i : Nat) : Nat := l.getD i 0

/-- Big-endian 32-bit integer read, Python struct.unpack of a 4-byte
slice with format string of a big-endian unsigned int. -/
def be32 (l : List Nat) (off : Nat) : Nat :=
  byteAt l off * 0x1000000 + byteAt l (off + 1) * 0x10000 +
    byteAt l (off + 2) * 0x100 + byteAt l (off + 3)

/-- Python bytes.decode with ascii codec and replacement on error: a
byte below 0x80 becomes that ASCII character, any other byte becomes
one U+FFFD replacement character. -/
def decodeAsciiReplace (bs : List Nat) : List Char :=
  bs.map (fun b => if b < 0x80 then Char.ofNat b else Char.ofNat 0xFFFD)

/-- Python str.isspace on the characters this parser can produce
(ASCII and U+FFFD): true exactly for 0x09-0x0D, 0x1C-0x1F and space. -/
def pyIsSpace (c : Char) : Bool :=
  [9, 10, 11, 12, 13, 28, 29, 30, 31, 32].contains c.toNat

/-- Python str.isprintable on the characters this parser can produce
(ASCII and U+FFFD): true for 0x20-0x7E and for U+FFFD. -/
def pyIsPrintable (c : Char) : Bool :=
  (decide (0x20 ≤ c.toNat) && decide (c.toNat ≤ 0x7E)) || decide (c.toNat = 0xFFFD)

/-- Python str.strip with no argument: remove leading and trailing
whitespace characters. -/
def pyStrip (cs : List Char) : List Char :=
  ((cs.dropWhile pyIsSpace).reverse.dropWhile pyIsSpace).reverse

/-- Python str.replace of the single character underscore by a space
(used on save-type bucket names). -/
def pyReplaceUnderscore (s : String) : String :=
  String.mk (s.data.map fun c => if c = '_' then ' ' else c)

/-- One entry of the country-code table: the fields of the Python dict
values, in source order. -/
structure RegionInfo where
  region : String
  country : String
  video : String
  hz : Nat
  flag : String
deriving DecidableEq

/-- The Python N64_COUNTRY_CODES dict, as an association list in
declaration order (all keys are distinct, so lookup agrees with the
dict). -/
def N64_COUNTRY_CODES : List (Nat × RegionInfo) :=
  [ (0x37, ⟨"NTSC-B", "Brazil", "NTSC", 60, "🇧🇷"⟩),
    (0x41, ⟨"NTSC-J", "Japan/Asia", "NTSC", 60, "🇯🇵"⟩),
    (0x44, ⟨"PAL-G", "Germany", "PAL", 50, "🇩🇪"⟩),
    (0x45, ⟨"NTSC-U", "USA", "NTSC", 60, "🇺🇸"⟩),
    (0x46, ⟨"PAL-F", "France", "PAL", 50, "🇫🇷"⟩),
    (0x47, ⟨"PAL-G", "Germany", "PAL", 50, "🇩🇪"⟩),
    (0x48, ⟨"PAL-NL", "Netherlands", "PAL", 50, "🇳🇱"⟩),
    (0x49, ⟨"PAL-I", "Italy", "PAL", 50, "🇮🇹"⟩),
    (0x4A, ⟨"NTSC-J", "Japan", "NTSC", 60, "🇯🇵"⟩),
    (0x4B, ⟨"NTSC-K", "Korea", "NTSC", 60, "🇰🇷"⟩),
    (0x4C, ⟨"PAL-X", "Gateway (PAL)", "PAL", 50, "🌍"⟩),
    (0x4E, ⟨"NTSC-C", "Canada", "NTSC", 60, "🇨🇦"⟩),
    (0x50, ⟨"PAL", "Europe", "PAL", 50, "🇪🇺"⟩),
    (0x53, ⟨"PAL-S", "Spain", "PAL", 50, "🇪🇸"⟩),
    (0x55, ⟨"PAL-A", "Australia", "PAL", 50, "🇦🇺"⟩),
    (0x57, ⟨"PAL-SC", "Scandinavia", "PAL", 50, "🇸🇪"⟩),
    (0x58, ⟨"PAL-X", "Europe (X)", "PAL", 50, "🇪🇺"⟩),
    (0x59, ⟨"PAL-X", "Europe (Y)", "PAL", 50, "🇪🇺"⟩),
    (0x00, ⟨"Demo", "Demo/Beta", "NTSC", 60, "🎮"⟩),
    (0x42, ⟨"NTSC-B", "Brazil", "NTSC", 60, "🇧🇷"⟩),
    (0x43, ⟨"NTSC-C", "China", "NTSC", 60, "🇨🇳"⟩) ]

/-- Hexadecimal digit character, uppercase, for a value below 16. -/
def hexDigit (n : Nat) : Char :=
  if n < 10 then Char.ofNat (48 + n) else Char.ofNat (55 + n)

/-- The Python f-string 0x followed by the code formatted 02X, for a
byte value (below 256): the two uppercase hexadecimal digits. -/
def hex02X (code : Nat) : String :=
  String.mk ['0', 'x', hexDigit (code / 16 % 16), hexDigit (code % 16)]

/-- Python N64RomInfo parse of the country byte: table lookup with the
documented NTSC fallback for unknown codes. -/
def parse_country (code : Nat) : RegionInfo :=
  match N64_COUNTRY_CODES.lookup code with
  | some info => info
  | none => ⟨hex02X code, "Unknown", "NTSC", 60, "❓"⟩

/-- One entry of the CIC table: the name and region fields of the
Python dict values (name is the only field the classifier reads). -/
structure CicInfo where
  name : String
  region : String
deriving DecidableEq

/-- The Python CIC_CHIPS dict, as an association list in declaration
order: six precise boot-code checksums followed by five legacy short
identifiers. -/
def CIC_CHIPS : List (Nat × CicInfo) :=
  [ (0x6170A4A1, ⟨"CIC-NUS-6101", "NTSC-J"⟩),
    (0x90BB6CB5, ⟨"CIC-NUS-6102", "NTSC-U/PAL"⟩),
    (0x0B050EE0, ⟨"CIC-NUS-6103", "NTSC-U/PAL"⟩),
    (0x98BC2C86, ⟨"CIC-NUS-6105", "NTSC-U/PAL"⟩),
    (0xACC8580A, ⟨"CIC-NUS-6106", "NTSC-U/PAL"⟩),
    (0x009E9EA3, ⟨"CIC-NUS-7102", "PAL"⟩),
    (0x3F, ⟨"CIC-6101", "NTSC-J"⟩),
    (0x3F01, ⟨"CIC-6102", "NTSC/PAL"⟩),
    (0x783F, ⟨"CIC-6103", "NTSC/PAL"⟩),
    (0x913F, ⟨"CIC-6105", "NTSC/PAL"⟩),
    (0x853F, ⟨"CIC-6106", "NTSC/PAL"⟩) ]

/-- The matching loop of the Python CIC detector: first table entry
whose key is an int above 0xFFFF and whose absolute distance to the
boot-code checksum is below 0x10000 (all keys are ints, so the
isinstance test of the source is always true). -/
def cicTableMatch (cic_checksum : Nat) : Option (Nat × CicInfo) :=
  CIC_CHIPS.find? (fun p =>
    decide (0xFFFF < p.1) &&
      decide (((cic_checksum : Int) - (p.1 : Int)).natAbs < 0x10000))

/-- Python N64RomInfo CIC detection: boot code shorter than 4032 bytes
gives Unknown; otherwise the 32-bit wrapped byte sum is matched against
the table, with an entry-point fallback when nothing matches. -/
def detect_cic (bootcode : List Nat) (entry_point : Nat) : String :=
  if bootcode.length < 4032 then "Unknown"
  else
    let cic_checksum := (bootcode.take 4032).sum % 2 ^ 32
    match cicTableMatch cic_checksum with
    | some p => p.2.name
    | none =>
      if entry_point = 0x80000400 then "CIC-6101"
      else if entry_point = 0x80000480 then "CIC-6103"
      else if entry_point = 0x800004C0 then "CIC-6106"
      else "CIC-6102"

/-- The Python SAVE_TYPES dict, as an association list in declaration
order. -/
def SAVE_TYPES : List (String × List String) :=
  [ ("EEPROM_4K", ["NSM", "NDY", "NWT", "NWQ", "NW2", "N3D", "NAD", "NB5", "NBD", "NBC"]),
    ("EEPROM_16K", ["NZL", "NMQ", "NPN", "NPW", "NPY", "NRE", "NRZ", "NSA", "NTE", "NVY"]),
    ("SRAM_256K", ["NER", "NJF", "NKJ", "NMF", "NRI", "NS6", "NTJ", "NUB", "NYK"]),
    ("FLASH_1M", ["NCC", "NDA", "NDO", "NDP", "NFZ", "NGE", "NJM", "NKA", "NKI", "NM8", "NMV", "NMW", "NPD", "NR7", "NRH", "NSI", "NW4", "NZS"]),
    ("CPAK", ["N64", "NB7", "NCH", "NCT", "NCU", "NCW", "NEA", "NEP", "NFH", "NFU", "NGL", "NGV", "NHA", "NHP", "NIB", "NIR", "NJG", "NK2", "NK4", "NKT"]) ]

/-- The membership test of the Python save-type loop: the game code or
the cartridge id alone appears in the code list of the bucket. -/
def saveBucketMatches (bucket : String × List String) (game_code cartridge_id : String) : Bool :=
  bucket.2.contains game_code || bucket.2.contains cartridge_id

/-- Python N64RomInfo save-type detection: first matching bucket wins
(name with underscores replaced by spaces); otherwise a fallback by
cartridge size in megabits. -/
def detect_save_type (manufacturer cartridge_id : String) (size_mbits : Nat) : String :=
  let game_code := manufacturer ++ cartridge_id
  match SAVE_TYPES.find? (fun b => saveBucketMatches b game_code cartridge_id) with
  | some b => pyReplaceUnderscore b.1
  | none =>
    if 256 ≤ size_mbits then "FlashRAM"
    else if 64 ≤ size_mbits then "SRAM"
    else "EEPROM"

/-- Python internal-name extraction: bytes 0x20-0x33 decoded with
replacement, stripped, non-printable characters replaced by spaces,
stripped again. -/
def parse_internal_name (header : List Nat) : String :=
  let s1 := pyStrip (decodeAsciiReplace ((header.drop 0x20).take 20))
  String.mk (pyStrip (s1.map (fun c => if pyIsPrintable c then c else ' ')))

/-- Python manufacturer extraction: the character of byte 0x3B, or the
letter N when that byte is zero. -/
def parse_manufacturer (header : List Nat) : String :=
  if byteAt header 0x3B = 0 then "N" else String.mk [Char.ofNat (byteAt header 0x3B)]

/-- Python cartridge-id extraction: bytes 0x3C-0x3D decoded with
replacement, not trimmed. -/
def parse_cartridge_id (header : List Nat) : String :=
  String.mk (decodeAsciiReplace ((header.drop 0x3C).take 2))

/-- The fields of a Python N64RomInfo object (the md5 digest is left
out: it is an opaque content hash never consulted by the classifier). -/
structure RomInfo where
  format : Option String
  internal_name : String
  cartridge_id : String
  country_code : Nat
  region : String
  country : String
  video_mode : String
  refresh_hz : Nat
  flag : String
  crc1 : Nat
  crc2 : Nat
  cic_chip : String
  save_type : String
  rom_version : Nat
  manufacturer : String
  entry_point : Nat
  size_bytes : Nat
  size_mbits : Nat
  valid : Bool
deriving DecidableEq

/-- The constructor defaults of N64RomInfo, with the size fields as
set from the stat of an existing file (a missing file keeps size 0). -/
def initRom (size_bytes : Nat) : RomInfo :=
  { format := some "unknown", internal_name := "", cartridge_id := "",
    country_code := 0, region := "Unknown", country := "Unknown",
    video_mode := "NTSC", refresh_hz := 60, flag := "🎮",
    crc1 := 0, crc2 := 0, cic_chip := "Unknown", save_type := "Unknown",
    rom_version := 0, manufacturer := "N", entry_point := 0,
    size_bytes := size_bytes, size_mbits := size_bytes * 8 / (1024 * 1024),
    valid := false }

/-- Apply the swap function selected by detect_rom_format (none means
no reordering). -/
def applySwap : Option SwapFunc → List Nat → List Nat
  | none, l => l
  | some .n64Swap, l => swap_bytes_n64 l
  | some .v64Swap, l => swap_bytes_v64 l

/-- The field assignments of the Python method parsing the canonical
header and boot code, together with the derived classifications. -/
def buildRomInfo (fmt : Option String) (header bootcode : List Nat) (size_bytes : Nat) : RomInfo :=
  let entry_point := be32 header 0x08
  let country_code := byteAt header 0x3E
  let reg := parse_country country_code
  let manufacturer := parse_manufacturer header
  let cartridge_id := parse_cartridge_id header
  let size_mbits := size_bytes * 8 / (1024 * 1024)
  { format := fmt,
    internal_name := parse_internal_name header,
    cartridge_id := cartridge_id,
    country_code := country_code,
    region := reg.region, country := reg.country, video_mode := reg.video,
    refresh_hz := reg.hz, flag := reg.flag,
    crc1 := be32 header 0x10, crc2 := be32 header 0x14,
    cic_chip := detect_cic bootcode entry_point,
    save_type := detect_save_type manufacturer cartridge_id size_mbits,
    rom_version := byteAt header 0x3F,
    manufacturer := manufacturer,
    entry_point := entry_point,
    size_bytes := size_bytes, size_mbits := size_mbits,
    valid := true }

/-- Parsing the content of a readable file: read at most 0x1000 bytes,
give up below 64 bytes, otherwise detect the format, normalize the
64-byte header and the boot-code slice 0x40-0x1000, and fill the
fields; valid is set only on this complete path. -/
def parseBytes (bytes : List Nat) : RomInfo :=
  let raw_header := bytes.take 0x1000
  if raw_header.length < 64 then initRom bytes.length
  else
    let fsw := detect_rom_format raw_header
    let header := applySwap fsw.2 (raw_header.take 64)
    let bootcode := applySwap fsw.2 ((raw_header.drop 0x40).take 0xFC0)
    buildRomInfo fsw.1 header bootcode bytes.length

/-- Outcome of the file accesses performed by the Python parse method,
in source order: the existence check fails; stat raises (a file
vanishing between the two calls) — a call that sits outside the try
block; the header read raises an exception that the method catches
(stat already gave a size); the header read returns the file bytes but
the later digest read raises a caught exception; both reads succeed. -/
inductive FileRead where
  | missing
  | statError
  | readError (size_bytes : Nat)
  | digestError (bytes : List Nat)
  | content (bytes : List Nat)

/-- Parsing when the digest read raises after the header read
succeeded: below 64 bytes the method has already returned with the
defaults; otherwise the header fields were parsed and assigned before
the exception, which is caught with valid still false. -/
def parseBytesNoDigest (bytes : List Nat) : RomInfo :=
  let raw_header := bytes.take 0x1000
  if raw_header.length < 64 then initRom bytes.length
  else
    let fsw := detect_rom_format raw_header
    let header := applySwap fsw.2 (raw_header.take 64)
    let bootcode := applySwap fsw.2 ((raw_header.drop 0x40).take 0xFC0)
    { buildRomInfo fsw.1 header bootcode bytes.length with valid := false }

/-- The Python parse method over the abstract file access.  A missing
file keeps the constructor defaults; a stat exception propagates out
of the constructor (the stat call is outside the try block), modelled
by the error result; a caught header-read error leaves every field at
its default except the sizes; a caught digest-read error keeps the
parsed fields with valid false; a complete read parses and
validates. -/
def parseRom : FileRead → Except String RomInfo
  | .missing => .ok (initRom 0)
  | .statError => .error "stat raised"
  | .readError size_bytes => .ok (initRom size_bytes)
  | .digestError bytes => .ok (parseBytesNoDigest bytes)
  | .content bytes => .ok (parseBytes bytes)

/-- The save-type bucket at a position of the declaration order. -/
def bucketAt (i : Nat) : String × List String := SAVE_TYPES.getD i ("", [])

/-- Modelled from the claim: the simplified save-type matcher that
tests only game-code membership in the bucket lists; the comparison
target of the refinement claim about the cartridge-id disjunct. -/
def detect_save_type_simple (manufacturer cartridge_id : String) (size_mbits : Nat) : String :=
  match SAVE_TYPES.find? (fun b => b.2.contains (manufacturer ++ cartridge_id)) with
  | some b => pyReplaceUnderscore b.1
  | none =>
    if 256 ≤ size_mbits then "FlashRAM"
    else if 64 ≤ size_mbits then "SRAM"
    else "EEPROM"

/-- Equality of the eight header fields named by the canonicalization
claim. -/
def sameHeaderFields (r s : RomInfo) : Prop :=
  r.internal_name = s.internal_name ∧ r.crc1 = s.crc1 ∧ r.crc2 = s.crc2 ∧
    r.country_code = s.country_code ∧ r.entry_point = s.entry_point ∧
    r.manufacturer = s.manufacturer ∧ r.cartridge_id = s.cartridge_id ∧
    r.rom_version = s.rom_version

/-- The safe defaults of the derived classification fields, as set by
the constructor. -/
def safeDefaults (r : RomInfo) : Prop :=
  r.region = "Unknown" ∧ r.cic_chip = "Unknown" ∧ r.save_type = "Unknown"

/-- A concrete 64-byte file content beginning with the standard magic
bytes, used by witnesses. -/
def romEx : List Nat := 0x80 :: 0x37 :: 0x12 :: 0x40 :: List.replicate 60 0

theorem swap_bytes_n64_nil : swap_bytes_n64 [] = [] := rfl

theorem swap_bytes_n64_cons (a b c d : Nat) (rest : List Nat) :
    swap_bytes_n64 (a :: b :: c :: d :: rest) = d :: c :: b :: a :: swap_bytes_n64 rest := rfl

theorem swap_bytes_v64_nil : swap_bytes_v64 [] = [] := rfl

theorem swap_bytes_v64_cons (a b : Nat) (rest : List Nat) :
    swap_bytes_v64 (a :: b :: rest) = b :: a :: swap_bytes_v64 rest := rfl

theorem swap_bytes_n64_involutive : ∀ l : List Nat, swap_bytes_n64 (swap_bytes_n64 l) = l
  | [] => rfl
  | [_] => rfl
  | [_, _] => rfl
  | [_, _, _] => rfl
  | a :: b :: c :: d :: rest => by
      rw [swap_bytes_n64_cons, swap_bytes_n64_cons, swap_bytes_n64_involutive rest]

theorem swap_bytes_v64_involutive : ∀ l : List Nat, swap_bytes_v64 (swap_bytes_v64 l) = l
  | [] => rfl
  | [_] => rfl
  | a :: b :: rest => by
      rw [swap_bytes_v64_cons, swap_bytes_v64_cons, swap_bytes_v64_involutive rest]

theorem swap_bytes_n64_length : ∀ l : List Nat, (swap_bytes_n64 l).length = l.length
  | [] => rfl
  | [_] => rfl
  | [_, _] => rfl
  | [_, _, _] => rfl
  | a :: b :: c :: d :: rest => by
      rw [swap_bytes_n64_cons]
      simp [swap_bytes_n64_length rest]

theorem swap_bytes_v64_length : ∀ l : List Nat, (swap_bytes_v64 l).length = l.length
  | [] => rfl
  | [_] => rfl
  | a :: b :: rest => by
      rw [swap_bytes_v64_cons]
      simp [swap_bytes_v64_length rest]

theorem swap_bytes_v64_take : ∀ (n : Nat) (l : List Nat),
    swap_bytes_v64 (l.take (2 * n)) = (swap_bytes_v64 l).take (2 * n)
  | 0, l => by simp [swap_bytes_v64_nil]
  | n + 1, [] => by simp [swap_bytes_v64_nil]
  | n + 1, [a] => by
      rw [List.take_of_length_le (by simp; omega), List.take_of_length_le]
      simp [swap_bytes_v64]; omega
  | n + 1, a :: b :: rest => by
      have h2 : 2 * (n + 1) = 2 * n + 1 + 1 := by ring
      rw [h2, List.take_succ_cons, List.take_succ_cons, swap_bytes_v64_cons,
        swap_bytes_v64_cons, List.take_succ_cons, List.take_succ_cons,
        swap_bytes_v64_take n rest]

theorem swap_bytes_v64_drop : ∀ (n : Nat) (l : List Nat),
    swap_bytes_v64 (l.drop (2 * n)) = (swap_bytes_v64 l).drop (2 * n)
  | 0, l => by simp
  | n + 1, [] => by simp [swap_bytes_v64_nil]
  | n + 1, [a] => by
      rw [List.drop_eq_nil_of_le (by simp; omega), List.drop_eq_nil_of_le]
      · rfl
      · simp [swap_bytes_v64]; omega
  | n + 1, a :: b :: rest => by
      have h2 : 2 * (n + 1) = 2 * n + 1 + 1 := by ring
      rw [h2, List.drop_succ_cons, List.drop_succ_cons, swap_bytes_v64_cons,
        List.drop_succ_cons, List.drop_succ_cons, swap_bytes_v64_drop n rest]

theorem swap_bytes_n64_take : ∀ (n : Nat) (l : List Nat),
    swap_bytes_n64 (l.take (4 * n)) = (swap_bytes_n64 l).take (4 * n)
  | 0, l => by simp [swap_bytes_n64_nil]
  | n + 1, [] => by simp [swap_bytes_n64_nil]
  | n + 1, [a] => by
      rw [List.take_of_length_le (by simp; omega), List.take_of_length_le]
      simp [swap_bytes_n64]; omega
  | n + 1, [a, b] => by
      rw [List.take_of_length_le (by simp; omega), List.take_of_length_le]
      simp [swap_bytes_n64]; omega
  | n + 1, [a, b, c] => by
      rw [List.take_of_length_le (by simp; omega), List.take_of_length_le]
      simp [swap_bytes_n64]; omega
  | n + 1, a :: b :: c :: d :: rest => by
      have h4 : 4 * (n + 1) = 4 * n + 1 + 1 + 1 + 1 := by ring
      rw [h4, List.take_succ_cons, List.take_succ_cons, List.take_succ_cons,
        List.take_succ_cons, swap_bytes_n64_cons, swap_bytes_n64_cons,
        List.take_succ_cons, List.take_succ_cons, List.take_succ_cons,
        List.take_succ_cons, swap_bytes_n64_take n rest]

theorem swap_bytes_n64_drop : ∀ (n : Nat) (l : List Nat),
    swap_bytes_n64 (l.drop (4 * n)) = (swap_bytes_n64 l).drop (4 * n)
  | 0, l => by simp
  | n + 1, [] => by simp [swap_bytes_n64_nil]
  | n + 1, [a] => by
      rw [List.drop_eq_nil_of_le (by simp; omega), List.drop_eq_nil_of_le]
      · rfl
      · simp [swap_bytes_n64]; omega
  | n + 1, [a, b] => by
      rw [List.drop_eq_nil_of_le (by simp; omega), List.drop_eq_nil_of_le]
      · rfl
      · simp [swap_bytes_n64]; omega
  | n + 1, [a, b, c] => by
      rw [List.drop_eq_nil_of_le (by simp; omega), List.drop_eq_nil_of_le]
      · rfl
      · simp [swap_bytes_n64]; omega
  | n + 1, a :: b :: c :: d :: rest => by
      have h4 : 4 * (n + 1) = 4 * n + 1 + 1 + 1 + 1 := by ring
      rw [h4, List.drop_succ_cons, List.drop_succ_cons, List.drop_succ_cons,
        List.drop_succ_cons, swap_bytes_n64_cons, List.drop_succ_cons,
        List.drop_succ_cons, List.drop_succ_cons, List.drop_succ_cons,
        swap_bytes_n64_drop n rest]

theorem find?_congrOn {α : Type} (p q : α → Bool) :
    ∀ l : List α, (∀ a ∈ l, p a = q a) → l.find? p = l.find? q
  | [], _ => rfl
  | a :: l, h => by
      have ha : p a = q a := h a (List.mem_cons_self a l)
      have hrec := find?_congrOn p q l (fun x hx => h x (List.mem_cons_of_mem a hx))
      cases hq : q a with
      | true =>
          rw [List.find?_cons_of_pos _ (ha.trans hq), List.find?_cons_of_pos _ hq]
      | false =>
          rw [List.find?_cons_of_neg _ (by simp [ha, hq]),
            List.find?_cons_of_neg _ (by simp [hq]), hrec]

theorem contains_eq_false_of_length {cid : String} : ∀ l : List String,
    (∀ s ∈ l, s.length = 3) → cid.length = 2 → l.contains cid = false
  | [], _, _ => rfl
  | s :: l, h, h2 => by
      have hs : s.length = 3 := h s (List.mem_cons_self s l)
      have hne : cid ≠ s := fun he => by rw [he, hs] at h2; exact absurd h2 (by omega)
      have hrec := contains_eq_false_of_length l (fun x hx => h x (List.mem_cons_of_mem s hx)) h2
      simp only [List.contains_cons, beq_eq_false_iff_ne.mpr hne, Bool.false_or]
      exact hrec

theorem parseBytes_eq_of_detect (bytes : List Nat)
    (h : ¬(bytes.take 4096).length < 64) :
    parseBytes bytes =
      buildRomInfo (detect_rom_format (bytes.take 4096)).1
        (applySwap (detect_rom_format (bytes.take 4096)).2 ((bytes.take 4096).take 64))
        (applySwap (detect_rom_format (bytes.take 4096)).2
          (((bytes.take 4096).drop 64).take 4032))
        bytes.length := by
  simp only [parseBytes]
  rw [if_neg h]

theorem sameHeaderFields_buildRomInfo (f g : Option String) (header bootcode : List Nat)
    (size_bytes : Nat) :
    sameHeaderFields (buildRomInfo f header bootcode size_bytes)
      (buildRomInfo g header bootcode size_bytes) :=
  ⟨rfl, rfl, rfl, rfl, rfl, rfl, rfl, rfl⟩

/-- Claim C7: both byte-reordering transforms are involutions, word
swap on buffers whose length is a multiple of 4 and halfword swap on
buffers whose length is a multiple of 2. -/
theorem C7 :
    (∀ b : List Nat, b.length % 4 = 0 → swap_bytes_n64 (swap_bytes_n64 b) = b) ∧
    (∀ b : List Nat, b.length % 2 = 0 → swap_bytes_v64 (swap_bytes_v64 b) = b) :=
  ⟨fun b _ => swap_bytes_n64_involutive b, fun b _ => swap_bytes_v64_involutive b⟩

theorem C7_witness :
    (([1, 2, 3, 4] : List Nat).length % 4 = 0 ∧
      swap_bytes_n64 (swap_bytes_n64 [1, 2, 3, 4]) = [1, 2, 3, 4]) ∧
    (([5, 6] : List Nat).length % 2 = 0 ∧
      swap_bytes_v64 (swap_bytes_v64 [5, 6]) = [5, 6]) :=
  ⟨⟨by decide, C7.1 [1, 2, 3, 4] (by decide)⟩, ⟨by decide, C7.2 [5, 6] (by decide)⟩⟩

/-- Claim C9, counterexample: on an input of fewer than 4 bytes the
detector does not return the format value spelled unknown (paired with
no transform); it returns no format value at all (Python None). -/
theorem C9_counterexample :
    ([] : List Nat).length < 4 ∧ detect_rom_format [] ≠ (some "unknown", none) :=
  ⟨by decide, by decide⟩

/-- Claim C9 as amended: for every input of fewer than 4 bytes,
detect_rom_format returns no format value (Python None) together with
no transform. -/
theorem C9_amended : ∀ bs : List Nat, bs.length < 4 → detect_rom_format bs = (none, none)
  | [], _ => rfl
  | [_], _ => rfl
  | [_, _], _ => rfl
  | [_, _, _], _ => rfl
  | _ :: _ :: _ :: _ :: _, h => absurd h (by simp only [List.length_cons]; omega)

theorem C9_witness :
    ([7, 8] : List Nat).length < 4 ∧ detect_rom_format [7, 8] = (none, none) :=
  ⟨by decide, C9_amended [7, 8] (by decide)⟩

/-- Claim C6: region classification is total on byte values; a code in
the country table yields its table entry, and a code outside the table
yields NTSC video, 60 Hz, country Unknown, and the region 0x followed
by the two-digit uppercase hexadecimal of the code. -/
theorem C6 (code : Nat) (h : code < 256) :
    (∃ info, N64_COUNTRY_CODES.lookup code = some info ∧ parse_country code = info) ∨
    (N64_COUNTRY_CODES.lookup code = none ∧
      parse_country code =
        ⟨String.mk ['0', 'x', hexDigit (code / 16), hexDigit (code % 16)],
          "Unknown", "NTSC", 60, "❓"⟩) := by
  cases hl : N64_COUNTRY_CODES.lookup code with
  | some info =>
      exact Or.inl ⟨info, rfl, by simp [parse_country, hl]⟩
  | none =>
      refine Or.inr ⟨rfl, ?_⟩
      have hdiv : code / 16 < 16 := (Nat.div_lt_iff_lt_mul (by omega)).2 (by omega)
      simp [parse_country, hl, hex02X, Nat.mod_eq_of_lt hdiv]

theorem C6_witness :
    (0x99 : Nat) < 256 ∧
      ((∃ info, N64_COUNTRY_CODES.lookup 0x99 = some info ∧ parse_country 0x99 = info) ∨
        (N64_COUNTRY_CODES.lookup 0x99 = none ∧
          parse_country 0x99 =
            ⟨String.mk ['0', 'x', hexDigit (0x99 / 16), hexDigit (0x99 % 16)],
              "Unknown", "NTSC", 60, "❓"⟩)) :=
  ⟨by decide, C6 0x99 (by decide)⟩

theorem parseBytesNoDigest_valid (bytes : List Nat) :
    (parseBytesNoDigest bytes).valid = false := by
  simp only [parseBytesNoDigest]
  by_cases h : (bytes.take 4096).length < 64
  · rw [if_pos h]
    rfl
  · rw [if_neg h]

theorem parseRom_error_iff (f : FileRead) :
    (∃ e, parseRom f = .error e) ↔ f = .statError := by
  cases f <;> simp [parseRom]

/-- Claim C8, counterexample: the claim fails on the code in two ways.
The stat call sits outside the try block, so a file vanishing between
the existence check and stat makes the constructor propagate an
exception instead of returning an invalid result; and an I/O error
caught on the digest read after a 64-byte header was read leaves the
parsed classification values (here region Demo and save type EEPROM)
rather than the safe defaults, with valid false. -/
theorem C8_counterexample :
    parseRom .statError = .error "stat raised" ∧
    parseRom (.digestError romEx) = .ok (parseBytesNoDigest romEx) ∧
    (parseBytesNoDigest romEx).valid = false ∧
    (parseBytesNoDigest romEx).region = "Demo" ∧
    (parseBytesNoDigest romEx).region ≠ "Unknown" ∧
    (parseBytesNoDigest romEx).save_type = "EEPROM" ∧
    (parseBytesNoDigest romEx).save_type ≠ "Unknown" :=
  ⟨rfl, rfl, by decide, by decide, by decide, by decide, by decide⟩

/-- Claim C8 as amended: the parse propagates an exception exactly in
the stat-raises outcome; a missing file, a caught header-read error,
and content shorter than 64 bytes (whether or not the digest read
would have failed) give valid false with the classification fields at
their safe defaults; a caught digest-read error always gives valid
false (though parsed field values may remain); and valid true occurs
only when at least 64 bytes of content were read and the digest read
succeeded. -/
theorem C8_amended :
    (∀ f : FileRead, (∃ e, parseRom f = .error e) ↔ f = .statError) ∧
    (∃ r, parseRom .missing = .ok r ∧ r.valid = false ∧ safeDefaults r) ∧
    (∀ size_bytes : Nat, ∃ r, parseRom (.readError size_bytes) = .ok r ∧
      r.valid = false ∧ safeDefaults r) ∧
    (∀ bytes : List Nat, bytes.length < 64 →
      (∃ r, parseRom (.content bytes) = .ok r ∧ r.valid = false ∧ safeDefaults r) ∧
      (∃ r, parseRom (.digestError bytes) = .ok r ∧ r.valid = false ∧ safeDefaults r)) ∧
    (∀ bytes : List Nat, ∀ r : RomInfo, parseRom (.digestError bytes) = .ok r →
      r.valid = false) ∧
    (∀ f : FileRead, ∀ r : RomInfo, parseRom f = .ok r → r.valid = true →
      ∃ bytes, f = .content bytes ∧ 64 ≤ bytes.length) := by
  refine ⟨parseRom_error_iff, ⟨initRom 0, rfl, rfl, rfl, rfl, rfl⟩,
    fun sz => ⟨initRom sz, rfl, rfl, rfl, rfl, rfl⟩, ?_, ?_, ?_⟩
  · intro bytes hlt
    have hsmall : (bytes.take 4096).length < 64 := by
      simp only [List.length_take]
      omega
    have hpb : parseBytes bytes = initRom bytes.length := by
      simp only [parseBytes]
      rw [if_pos hsmall]
    have hpd : parseBytesNoDigest bytes = initRom bytes.length := by
      simp only [parseBytesNoDigest]
      rw [if_pos hsmall]
    exact ⟨⟨initRom bytes.length, congrArg Except.ok hpb, rfl, rfl, rfl, rfl⟩,
      ⟨initRom bytes.length, congrArg Except.ok hpd, rfl, rfl, rfl, rfl⟩⟩
  · intro bytes r hok
    injection hok with h
    rw [← h]
    exact parseBytesNoDigest_valid bytes
  · intro f r hok hvalid
    cases f with
    | missing =>
        injection hok with h
        rw [← h] at hvalid
        exact absurd hvalid (by simp [initRom])
    | statError => exact Except.noConfusion hok
    | readError sz =>
        injection hok with h
        rw [← h] at hvalid
        exact absurd hvalid (by simp [initRom])
    | digestError bytes =>
        injection hok with h
        rw [← h, parseBytesNoDigest_valid bytes] at hvalid
        exact Bool.noConfusion hvalid
    | content bytes =>
        injection hok with h
        refine ⟨bytes, rfl, ?_⟩
        by_cases hsmall : (bytes.take 4096).length < 64
        · have hpb : parseBytes bytes = initRom bytes.length := by
            simp only [parseBytes]
            rw [if_pos hsmall]
          rw [← h, hpb] at hvalid
          exact absurd hvalid (by simp [initRom])
        · simp only [List.length_take] at hsmall
          omega

theorem C8_witness :
    ([1, 2, 3] : List Nat).length < 64 ∧
      ((∃ r, parseRom (.content [1, 2, 3]) = .ok r ∧ r.valid = false ∧ safeDefaults r) ∧
        (∃ r, parseRom (.digestError [1, 2, 3]) = .ok r ∧ r.valid = false ∧
          safeDefaults r)) :=
  ⟨by decide, C8_amended.2.2.2.1 [1, 2, 3] (by decide)⟩

/-- The body of detect_cic with its local binding unfolded; holds by
definitional unfolding. -/
theorem detect_cic_eq (bootcode : List Nat) (entry_point : Nat) :
    detect_cic bootcode entry_point =
      if bootcode.length < 4032 then "Unknown"
      else
        match cicTableMatch ((bootcode.take 4032).sum % 2 ^ 32) with
        | some p => p.2.name
        | none =>
          if entry_point = 0x80000400 then "CIC-6101"
          else if entry_point = 0x80000480 then "CIC-6103"
          else if entry_point = 0x800004C0 then "CIC-6106"
          else "CIC-6102" := rfl

theorem replicate_zero_checksum :
    ((List.replicate 4032 (0 : Nat)).take 4032).sum % 2 ^ 32 = 0 := by
  rw [List.take_replicate]
  simp only [List.sum_replicate, smul_zero, Nat.zero_mod]

theorem cicTableMatch_zero : cicTableMatch 0 = none := by decide

theorem replicate_zero_length_ge : ¬(List.replicate 4032 (0 : Nat)).length < 4032 := by
  simp only [List.length_replicate]
  omega

theorem detect_cic_replicate_zero (entry_point : Nat) :
    detect_cic (List.replicate 4032 0) entry_point =
      if entry_point = 0x80000400 then "CIC-6101"
      else if entry_point = 0x80000480 then "CIC-6103"
      else if entry_point = 0x800004C0 then "CIC-6106"
      else "CIC-6102" := by
  rw [detect_cic_eq, if_neg replicate_zero_length_ge, replicate_zero_checksum,
    cicTableMatch_zero]

/-- Claim C2: CIC classification computes the 32-bit wrapped sum of
the first 4032 boot-code bytes; a table match is declared exactly when
some table constant exceeds 0xFFFF and has absolute distance below
0x10000 from the checksum, the matched entry always has its constant
above 0xFFFF (so the legacy short identifiers never produce a match,
and the matched name is reported); boot code shorter than 4032 bytes
gives Unknown. -/
theorem C2 (bootcode : List Nat) (entry_point : Nat) :
    (bootcode.length < 4032 → detect_cic bootcode entry_point = "Unknown") ∧
    (4032 ≤ bootcode.length →
      ((cicTableMatch ((bootcode.take 4032).sum % 2 ^ 32)).isSome ↔
        ∃ p ∈ CIC_CHIPS, 0xFFFF < p.1 ∧
          ((((bootcode.take 4032).sum % 2 ^ 32 : Nat) : Int) - (p.1 : Int)).natAbs < 0x10000) ∧
      (∀ p, cicTableMatch ((bootcode.take 4032).sum % 2 ^ 32) = some p →
        detect_cic bootcode entry_point = p.2.name ∧ 0xFFFF < p.1 ∧
          p.1 ∉ ([0x3F, 0x3F01, 0x783F, 0x913F, 0x853F] : List Nat))) := by
  constructor
  · intro h
    rw [detect_cic_eq, if_pos h]
  · intro h
    constructor
    · simp only [cicTableMatch, List.find?_isSome, Bool.and_eq_true, decide_eq_true_eq]
    · intro p hfind
      have hpred := List.find?_some hfind
      simp only [cicTableMatch] at hfind
      simp only [Bool.and_eq_true, decide_eq_true_eq] at hpred
      have hge : ¬bootcode.length < 4032 := by omega
      refine ⟨?_, hpred.1, ?_⟩
      · rw [detect_cic_eq, if_neg hge, cicTableMatch, hfind]
      · intro hmem
        have hbig := hpred.1
        simp only [List.mem_cons, List.not_mem_nil, or_false] at hmem
        rcases hmem with h' | h' | h' | h' | h' <;> rw [h'] at hbig <;>
          exact absurd hbig (by decide)

theorem C2_witness :
    (List.replicate 4000 (0 : Nat)).length < 4032 ∧
      detect_cic (List.replicate 4000 0) 0 = "Unknown" :=
  ⟨by simp only [List.length_replicate]; omega,
    (C2 (List.replicate 4000 0) 0).1 (by simp only [List.length_replicate]; omega)⟩

/-- Claim C3: when the checksum matches no table entry, the chip is
chosen from the entry point: 0x80000400 gives CIC-6101, 0x80000480
gives CIC-6103, 0x800004C0 gives CIC-6106, any other value gives
CIC-6102. -/
theorem C3 (bootcode : List Nat) (entry_point : Nat) (h : 4032 ≤ bootcode.length)
    (hnone : cicTableMatch ((bootcode.take 4032).sum % 2 ^ 32) = none) :
    detect_cic bootcode entry_point =
      if entry_point = 0x80000400 then "CIC-6101"
      else if entry_point = 0x80000480 then "CIC-6103"
      else if entry_point = 0x800004C0 then "CIC-6106"
      else "CIC-6102" := by
  have hge : ¬bootcode.length < 4032 := by omega
  rw [detect_cic_eq, if_neg hge, hnone]

theorem C3_witness :
    (4032 ≤ (List.replicate 4032 (0 : Nat)).length ∧
      cicTableMatch (((List.replicate 4032 (0 : Nat)).take 4032).sum % 2 ^ 32) = none) ∧
      detect_cic (List.replicate 4032 0) 0x12345678 = "CIC-6102" := by
  have hlen : 4032 ≤ (List.replicate 4032 (0 : Nat)).length := by
    simp only [List.length_replicate]
    exact Nat.le_refl 4032
  have hnone : cicTableMatch (((List.replicate 4032 (0 : Nat)).take 4032).sum % 2 ^ 32) = none := by
    rw [replicate_zero_checksum]
    exact cicTableMatch_zero
  refine ⟨⟨hlen, hnone⟩, ?_⟩
  rw [C3 (List.replicate 4032 0) 0x12345678 hlen hnone]
  decide

/-- Claim C4, counterexample: a boot-code buffer whose checksum
matches no table entry, with entry point 0x80000400 (a value other
than 0x80000480), classifies as CIC-6101 and not as CIC-6102. -/
theorem C4_counterexample :
    4032 ≤ (List.replicate 4032 (0 : Nat)).length ∧
      cicTableMatch (((List.replicate 4032 (0 : Nat)).take 4032).sum % 2 ^ 32) = none ∧
      (0x80000400 : Nat) ≠ 0x80000480 ∧
      detect_cic (List.replicate 4032 0) 0x80000400 = "CIC-6101" ∧
      detect_cic (List.replicate 4032 0) 0x80000400 ≠ "CIC-6102" := by
  refine ⟨by simp only [List.length_replicate]; exact Nat.le_refl 4032, ?_, by decide, ?_, ?_⟩
  · rw [replicate_zero_checksum]
    exact cicTableMatch_zero
  · rw [detect_cic_replicate_zero]
    decide
  · rw [detect_cic_replicate_zero]
    decide

/-- Claim C4 as amended: for a boot-code buffer of at least 4032 bytes
whose checksum matches no table constant, entry point 0x80000480 gives
CIC-6103, and any entry point other than the three special values
0x80000400, 0x80000480 and 0x800004C0 gives CIC-6102 (0x80000400
gives CIC-6101 and 0x800004C0 gives CIC-6106 instead). -/
theorem C4_amended (bootcode : List Nat) (entry_point : Nat) (h : 4032 ≤ bootcode.length)
    (hnomatch : ∀ p ∈ CIC_CHIPS, ¬(0xFFFF < p.1 ∧
      ((((bootcode.take 4032).sum % 2 ^ 32 : Nat) : Int) - (p.1 : Int)).natAbs < 0x10000)) :
    (entry_point = 0x80000480 → detect_cic bootcode entry_point = "CIC-6103") ∧
    (entry_point ≠ 0x80000400 → entry_point ≠ 0x80000480 → entry_point ≠ 0x800004C0 →
      detect_cic bootcode entry_point = "CIC-6102") := by
  have hnone : cicTableMatch ((bootcode.take 4032).sum % 2 ^ 32) = none := by
    rw [cicTableMatch, List.find?_eq_none]
    intro p hp
    have hnp := hnomatch p hp
    simp only [Bool.and_eq_true, decide_eq_true_eq, not_and]
    intro h1 h2
    exact hnp ⟨h1, h2⟩
  have hge : ¬bootcode.length < 4032 := by omega
  constructor
  · intro he
    rw [detect_cic_eq, if_neg hge, hnone, he]
    decide
  · intro h1 h2 h3
    rw [detect_cic_eq, if_neg hge, hnone, if_neg h1, if_neg h2, if_neg h3]

theorem C4_witness :
    4032 ≤ (List.replicate 4032 (0 : Nat)).length ∧
      detect_cic (List.replicate 4032 0) 0x80000480 = "CIC-6103" := by
  have hnomatch : ∀ p ∈ CIC_CHIPS, ¬(0xFFFF < p.1 ∧
      ((((List.replicate 4032 (0 : Nat) |>.take 4032).sum % 2 ^ 32 : Nat) : Int) -
        (p.1 : Int)).natAbs < 0x10000) := by
    rw [replicate_zero_checksum]
    decide
  exact ⟨by simp only [List.length_replicate]; exact Nat.le_refl 4032,
    (C4_amended (List.replicate 4032 0) 0x80000480
      (by simp only [List.length_replicate]; exact Nat.le_refl 4032) hnomatch).1 rfl⟩

theorem bool_ne_true {b : Bool} (h : b = false) : ¬b = true := by
  rw [h]
  exact Bool.false_ne_true

/-- The body of detect_save_type with its local binding unfolded;
holds by definitional unfolding. -/
theorem detect_save_type_eq (manufacturer cartridge_id : String) (size_mbits : Nat) :
    detect_save_type manufacturer cartridge_id size_mbits =
      match SAVE_TYPES.find?
          (fun b => saveBucketMatches b (manufacturer ++ cartridge_id) cartridge_id) with
      | some b => pyReplaceUnderscore b.1
      | none =>
        if 256 ≤ size_mbits then "FlashRAM"
        else if 64 ≤ size_mbits then "SRAM"
        else "EEPROM" := rfl

theorem SAVE_TYPES_buckets :
    SAVE_TYPES = [bucketAt 0, bucketAt 1, bucketAt 2, bucketAt 3, bucketAt 4] := rfl

theorem find?_bucket_pos (g c : String) (b : String × List String)
    (l : List (String × List String)) (h : saveBucketMatches b g c = true) :
    List.find? (fun x => saveBucketMatches x g c) (b :: l) = some b :=
  @List.find?_cons_of_pos _ (fun x => saveBucketMatches x g c) b l h

theorem find?_bucket_neg (g c : String) (b : String × List String)
    (l : List (String × List String)) (h : saveBucketMatches b g c = false) :
    List.find? (fun x => saveBucketMatches x g c) (b :: l) =
      List.find? (fun x => saveBucketMatches x g c) l :=
  @List.find?_cons_of_neg _ (fun x => saveBucketMatches x g c) b l (bool_ne_true h)

/-- Claim C5: the save-type buckets are scanned in declaration order
EEPROM_4K, EEPROM_16K, SRAM_256K, FLASH_1M, CPAK, a bucket matches on
the game code or the cartridge id alone, the first matching bucket
wins, and when no bucket matches the size fallback applies: at least
256 megabits gives FlashRAM, at least 64 gives SRAM, anything smaller
gives EEPROM. -/
theorem C5 (manufacturer cartridge_id : String) (size_mbits : Nat) :
    SAVE_TYPES.map Prod.fst = ["EEPROM_4K", "EEPROM_16K", "SRAM_256K", "FLASH_1M", "CPAK"] ∧
    (saveBucketMatches (bucketAt 0) (manufacturer ++ cartridge_id) cartridge_id = true →
      detect_save_type manufacturer cartridge_id size_mbits = "EEPROM 4K") ∧
    (saveBucketMatches (bucketAt 0) (manufacturer ++ cartridge_id) cartridge_id = false →
      saveBucketMatches (bucketAt 1) (manufacturer ++ cartridge_id) cartridge_id = true →
      detect_save_type manufacturer cartridge_id size_mbits = "EEPROM 16K") ∧
    (saveBucketMatches (bucketAt 0) (manufacturer ++ cartridge_id) cartridge_id = false →
      saveBucketMatches (bucketAt 1) (manufacturer ++ cartridge_id) cartridge_id = false →
      saveBucketMatches (bucketAt 2) (manufacturer ++ cartridge_id) cartridge_id = true →
      detect_save_type manufacturer cartridge_id size_mbits = "SRAM 256K") ∧
    (saveBucketMatches (bucketAt 0) (manufacturer ++ cartridge_id) cartridge_id = false →
      saveBucketMatches (bucketAt 1) (manufacturer ++ cartridge_id) cartridge_id = false →
      saveBucketMatches (bucketAt 2) (manufacturer ++ cartridge_id) cartridge_id = false →
      saveBucketMatches (bucketAt 3) (manufacturer ++ cartridge_id) cartridge_id = true →
      detect_save_type manufacturer cartridge_id size_mbits = "FLASH 1M") ∧
    (saveBucketMatches (bucketAt 0) (manufacturer ++ cartridge_id) cartridge_id = false →
      saveBucketMatches (bucketAt 1) (manufacturer ++ cartridge_id) cartridge_id = false →
      saveBucketMatches (bucketAt 2) (manufacturer ++ cartridge_id) cartridge_id = false →
      saveBucketMatches (bucketAt 3) (manufacturer ++ cartridge_id) cartridge_id = false →
      saveBucketMatches (bucketAt 4) (manufacturer ++ cartridge_id) cartridge_id = true →
      detect_save_type manufacturer cartridge_id size_mbits = "CPAK") ∧
    ((∀ i, i < 5 → saveBucketMatches (bucketAt i) (manufacturer ++ cartridge_id) cartridge_id = false) →
      detect_save_type manufacturer cartridge_id size_mbits =
        if 256 ≤ size_mbits then "FlashRAM"
        else if 64 ≤ size_mbits then "SRAM"
        else "EEPROM") := by
  refine ⟨rfl, ?_, ?_, ?_, ?_, ?_, ?_⟩
  · intro h0
    rw [detect_save_type_eq, SAVE_TYPES_buckets, find?_bucket_pos _ _ _ _ h0]
    rfl
  · intro h0 h1
    rw [detect_save_type_eq, SAVE_TYPES_buckets, find?_bucket_neg _ _ _ _ h0,
      find?_bucket_pos _ _ _ _ h1]
    rfl
  · intro h0 h1 h2
    rw [detect_save_type_eq, SAVE_TYPES_buckets, find?_bucket_neg _ _ _ _ h0,
      find?_bucket_neg _ _ _ _ h1, find?_bucket_pos _ _ _ _ h2]
    rfl
  · intro h0 h1 h2 h3
    rw [detect_save_type_eq, SAVE_TYPES_buckets, find?_bucket_neg _ _ _ _ h0,
      find?_bucket_neg _ _ _ _ h1, find?_bucket_neg _ _ _ _ h2,
      find?_bucket_pos _ _ _ _ h3]
    rfl
  · intro h0 h1 h2 h3 h4
    rw [detect_save_type_eq, SAVE_TYPES_buckets, find?_bucket_neg _ _ _ _ h0,
      find?_bucket_neg _ _ _ _ h1, find?_bucket_neg _ _ _ _ h2,
      find?_bucket_neg _ _ _ _ h3, find?_bucket_pos _ _ _ _ h4]
    rfl
  · intro hall
    rw [detect_save_type_eq, SAVE_TYPES_buckets,
      find?_bucket_neg _ _ _ _ (hall 0 (by omega)),
      find?_bucket_neg _ _ _ _ (hall 1 (by omega)),
      find?_bucket_neg _ _ _ _ (hall 2 (by omega)),
      find?_bucket_neg _ _ _ _ (hall 3 (by omega)),
      find?_bucket_neg _ _ _ _ (hall 4 (by omega)), List.find?_nil]

theorem C5_witness :
    saveBucketMatches (bucketAt 0) ("N" ++ "SM") "SM" = true ∧
      detect_save_type "N" "SM" 8 = "EEPROM 4K" :=
  ⟨by decide, (C5 "N" "SM" 8).2.1 (by decide)⟩

/-- Claim C10: the save-type matcher is observably the simplified
matcher that tests only game-code membership, because the cartridge id
is always exactly two characters (one per byte of the 0x3C slice)
while every bucket entry is a three-character string, so the
cartridge-id disjunct never fires. -/
theorem C10 :
    (∀ header : List Nat, 0x3E ≤ header.length → (parse_cartridge_id header).length = 2) ∧
    (∀ b ∈ SAVE_TYPES, ∀ s ∈ b.2, s.length = 3) ∧
    (∀ manufacturer cartridge_id : String, ∀ size_mbits : Nat, cartridge_id.length = 2 →
      detect_save_type manufacturer cartridge_id size_mbits =
        detect_save_type_simple manufacturer cartridge_id size_mbits) := by
  have hlen3 : ∀ b ∈ SAVE_TYPES, ∀ s ∈ b.2, s.length = 3 := by decide
  refine ⟨?_, hlen3, ?_⟩
  · intro header hlen
    simp only [parse_cartridge_id, String.length_mk, decodeAsciiReplace, List.length_map,
      List.length_take, List.length_drop]
    omega
  · intro manufacturer cartridge_id size_mbits h2
    have hall : ∀ b ∈ SAVE_TYPES, b.2.contains cartridge_id = false := fun b hb =>
      contains_eq_false_of_length b.2 (hlen3 b hb) h2
    have hfind :
        SAVE_TYPES.find?
            (fun b => saveBucketMatches b (manufacturer ++ cartridge_id) cartridge_id) =
          SAVE_TYPES.find? (fun b => b.2.contains (manufacturer ++ cartridge_id)) := by
      apply find?_congrOn
      intro b hb
      simp only [saveBucketMatches, hall b hb, Bool.or_false]
    rw [detect_save_type_eq, hfind]
    rfl

theorem C10_witness :
    (0x3E ≤ (List.replicate 64 (0 : Nat)).length ∧
      (parse_cartridge_id (List.replicate 64 0)).length = 2) ∧
    (("SM" : String).length = 2 ∧
      detect_save_type "N" "SM" 8 = detect_save_type_simple "N" "SM" 8) :=
  ⟨⟨by simp only [List.length_replicate]; omega,
      C10.1 (List.replicate 64 0) (by simp only [List.length_replicate]; omega)⟩,
    ⟨by decide, C10.2.2 "N" "SM" 8 (by decide)⟩⟩

theorem v64_take_4096 (l : List Nat) :
    (swap_bytes_v64 l).take 4096 = swap_bytes_v64 (l.take 4096) := by
  have h := swap_bytes_v64_take 2048 l
  norm_num at h
  exact h.symm

theorem v64_take_64 (l : List Nat) :
    (swap_bytes_v64 l).take 64 = swap_bytes_v64 (l.take 64) := by
  have h := swap_bytes_v64_take 32 l
  norm_num at h
  exact h.symm

theorem v64_take_4032 (l : List Nat) :
    (swap_bytes_v64 l).take 4032 = swap_bytes_v64 (l.take 4032) := by
  have h := swap_bytes_v64_take 2016 l
  norm_num at h
  exact h.symm

theorem v64_drop_64 (l : List Nat) :
    (swap_bytes_v64 l).drop 64 = swap_bytes_v64 (l.drop 64) := by
  have h := swap_bytes_v64_drop 32 l
  norm_num at h
  exact h.symm

theorem n64_take_4096 (l : List Nat) :
    (swap_bytes_n64 l).take 4096 = swap_bytes_n64 (l.take 4096) := by
  have h := swap_bytes_n64_take 1024 l
  norm_num at h
  exact h.symm

theorem n64_take_64 (l : List Nat) :
    (swap_bytes_n64 l).take 64 = swap_bytes_n64 (l.take 64) := by
  have h := swap_bytes_n64_take 16 l
  norm_num at h
  exact h.symm

theorem n64_take_4032 (l : List Nat) :
    (swap_bytes_n64 l).take 4032 = swap_bytes_n64 (l.take 4032) := by
  have h := swap_bytes_n64_take 1008 l
  norm_num at h
  exact h.symm

theorem n64_drop_64 (l : List Nat) :
    (swap_bytes_n64 l).drop 64 = swap_bytes_n64 (l.drop 64) := by
  have h := swap_bytes_n64_drop 16 l
  norm_num at h
  exact h.symm

theorem take_4096_cons4 (a b c d : Nat) (l : List Nat) :
    (a :: b :: c :: d :: l).take 4096 = a :: b :: c :: d :: l.take 4092 := rfl

theorem detect_z64_cons (b2 b3 : Nat) (rest : List Nat) :
    detect_rom_format (0x80 :: 0x37 :: b2 :: b3 :: rest) = (some "z64", none) := rfl

theorem detect_v64_cons (rest : List Nat) :
    detect_rom_format (0x37 :: 0x80 :: 0x40 :: 0x12 :: rest) =
      (some "v64", some .v64Swap) := rfl

theorem detect_n64_cons (rest : List Nat) :
    detect_rom_format (0x40 :: 0x12 :: 0x37 :: 0x80 :: rest) =
      (some "n64", some .n64Swap) := rfl

/-- Claim C1: for a file of at least 64 bytes whose bytes begin with
the standard magic, parsing the file as-is and parsing its halfword
swapped (V64) or word swapped (N64) re-encoding yield identical header
field values: internal name, crc1, crc2, country code, entry point,
manufacturer id, cartridge id and rom version. -/
theorem C1 (rom : List Nat) (h64 : 64 ≤ rom.length)
    (hmagic : rom.take 4 = [0x80, 0x37, 0x12, 0x40]) :
    parseRom (.content rom) = .ok (parseBytes rom) ∧
      (sameHeaderFields (parseBytes rom) (parseBytes (swap_bytes_v64 rom)) ∧
        sameHeaderFields (parseBytes rom) (parseBytes (swap_bytes_n64 rom))) := by
  refine ⟨rfl, ?_⟩
  have hrom : rom = 0x80 :: 0x37 :: 0x12 :: 0x40 :: rom.drop 4 := by
    conv_lhs => rw [← List.take_append_drop 4 rom, hmagic]
    rfl
  generalize ht : rom.drop 4 = t at hrom
  subst hrom
  simp only [List.length_cons] at h64
  have hlen1 : ¬((0x80 :: 0x37 :: 0x12 :: 0x40 :: t).take 4096).length < 64 := by
    simp only [List.length_take, List.length_cons]
    omega
  have e1 : parseBytes (0x80 :: 0x37 :: 0x12 :: 0x40 :: t) =
      buildRomInfo (some "z64")
        (((0x80 :: 0x37 :: 0x12 :: 0x40 :: t).take 4096).take 64)
        ((((0x80 :: 0x37 :: 0x12 :: 0x40 :: t).take 4096).drop 64).take 4032)
        (0x80 :: 0x37 :: 0x12 :: 0x40 :: t).length := by
    rw [parseBytes_eq_of_detect _ hlen1, take_4096_cons4, detect_z64_cons]
    rfl
  have hswv : swap_bytes_v64 (0x80 :: 0x37 :: 0x12 :: 0x40 :: t) =
      0x37 :: 0x80 :: 0x40 :: 0x12 :: swap_bytes_v64 t := rfl
  have hlen2 : ¬((swap_bytes_v64 (0x80 :: 0x37 :: 0x12 :: 0x40 :: t)).take 4096).length < 64 := by
    simp only [List.length_take, swap_bytes_v64_length, List.length_cons]
    omega
  have hdet2 : detect_rom_format
      ((swap_bytes_v64 (0x80 :: 0x37 :: 0x12 :: 0x40 :: t)).take 4096) =
      (some "v64", some .v64Swap) := by
    rw [hswv, take_4096_cons4]
    exact detect_v64_cons _
  have e2 : parseBytes (swap_bytes_v64 (0x80 :: 0x37 :: 0x12 :: 0x40 :: t)) =
      buildRomInfo (some "v64")
        (((0x80 :: 0x37 :: 0x12 :: 0x40 :: t).take 4096).take 64)
        ((((0x80 :: 0x37 :: 0x12 :: 0x40 :: t).take 4096).drop 64).take 4032)
        (0x80 :: 0x37 :: 0x12 :: 0x40 :: t).length := by
    rw [parseBytes_eq_of_detect _ hlen2, hdet2]
    simp only [applySwap]
    rw [v64_take_4096, v64_take_64, v64_drop_64, v64_take_4032, swap_bytes_v64_length]
    simp only [swap_bytes_v64_involutive]
  have hswn : swap_bytes_n64 (0x80 :: 0x37 :: 0x12 :: 0x40 :: t) =
      0x40 :: 0x12 :: 0x37 :: 0x80 :: swap_bytes_n64 t := rfl
  have hlen3 : ¬((swap_bytes_n64 (0x80 :: 0x37 :: 0x12 :: 0x40 :: t)).take 4096).length < 64 := by
    simp only [List.length_take, swap_bytes_n64_length, List.length_cons]
    omega
  have hdet3 : detect_rom_format
      ((swap_bytes_n64 (0x80 :: 0x37 :: 0x12 :: 0x40 :: t)).take 4096) =
      (some "n64", some .n64Swap) := by
    rw [hswn, take_4096_cons4]
    exact detect_n64_cons _
  have e3 : parseBytes (swap_bytes_n64 (0x80 :: 0x37 :: 0x12 :: 0x40 :: t)) =
      buildRomInfo (some "n64")
        (((0x80 :: 0x37 :: 0x12 :: 0x40 :: t).take 4096).take 64)
        ((((0x80 :: 0x37 :: 0x12 :: 0x40 :: t).take 4096).drop 64).take 4032)
        (0x80 :: 0x37 :: 0x12 :: 0x40 :: t).length := by
    rw [parseBytes_eq_of_detect _ hlen3, hdet3]
    simp only [applySwap]
    rw [n64_take_4096, n64_take_64, n64_drop_64, n64_take_4032, swap_bytes_n64_length]
    simp only [swap_bytes_n64_involutive]
  constructor
  · rw [e1, e2]
    exact sameHeaderFields_buildRomInfo _ _ _ _ _
  · rw [e1, e3]
    exact sameHeaderFields_buildRomInfo _ _ _ _ _

theorem C1_witness :
    64 ≤ romEx.length ∧ romEx.take 4 = [0x80, 0x37, 0x12, 0x40] ∧
      (parseRom (.content romEx) = .ok (parseBytes romEx) ∧
        (sameHeaderFields (parseBytes romEx) (parseBytes (swap_bytes_v64 romEx)) ∧
          sameHeaderFields (parseBytes romEx) (parseBytes (swap_bytes_n64 romEx)))) :=
  ⟨by decide, by decide, C1 romEx (by decide) (by decide)⟩

end CatsHLE
